import Mathlib

/-
Verification of the bounded_cast repository (numeric_domain.hpp,
bounded_cast.hpp): a C++11 header-only library converting values between
bounded numeric ranges (domains) by clamping and linear rescaling.

The embedding models the integral instantiations of the templates over ℤ
(C++ integer arithmetic with truncation-toward-zero division) and the
floating instantiations over ℚ (exact real arithmetic standing in for
IEEE floats; the final static_cast of a floating value to an integral
destination truncates toward zero).  C++ undefined behaviour on integer
division by zero is modelled by an Option result.
-/

namespace NumericDomain

/-- C++ integral division: truncation toward zero; division by zero is
undefined behaviour, modelled as none. -/
def cppDiv (a b : ℤ) : Option ℤ :=
  if b = 0 then none else some (a.tdiv b)

/-- Division at a floating instantiation, modelled exactly over ℚ; a zero
divisor yields a non-finite IEEE value unusable downstream, modelled as
none. -/
def cppDivRat (a b : ℚ) : Option ℚ :=
  if b = 0 then none else some (a / b)

/-- Truncation toward zero of a rational, modelling static_cast from a
floating value to an integral type. -/
def ratTrunc (q : ℚ) : ℤ :=
  q.num.tdiv q.den

/-- domain_convert (numeric_domain.hpp lines 67 to 73) at an integral
instantiation: bounded = max(tmin, min(tmax, t)); scaled =
(bounded - tmin) * uextent; rescaled = umin + scaled / textent; the final
static_cast is the identity at an integral destination wide enough for the
result.  bounded_cast (bounded_cast.hpp lines 60 to 69) computes the same
expression with bounds and extents resolved from bounds_of. -/
def domain_convert (t tmin tmax textent umin uextent : ℤ) : Option ℤ :=
  let bounded := max tmin (min tmax t)
  let scaled := (bounded - tmin) * uextent
  (cppDiv scaled textent).map (fun q => umin + q)

/-- domain_convert at a floating instantiation, over ℚ. -/
def domain_convertRat (t tmin tmax textent umin uextent : ℚ) : Option ℚ :=
  let bounded := max tmin (min tmax t)
  let scaled := (bounded - tmin) * uextent
  (cppDivRat scaled textent).map (fun q => umin + q)

/-- domain_convert at a floating source with an integral destination value
type: the arithmetic is done in the floating type (the integral operands
are promoted) and the final static_cast truncates toward zero. -/
def domain_convertRatToInt (t tmin tmax textent umin uextent : ℚ) : Option ℤ :=
  (domain_convertRat t tmin tmax textent umin uextent).map ratTrunc

/-- A static domain as resolved from numeric_domain<T>: the numeric data a
specialization provides, at an integral value type. -/
structure StaticDomain where
  min : ℤ
  max : ℤ

/-- extent_of (numeric_domain.hpp lines 56 to 59): max() - min(), here in
unbounded ℤ; the width of the C++ extent type decltype(v - v) is treated
separately where it matters. -/
def extent_of (D : StaticDomain) : ℤ :=
  D.max - D.min

/-- General domain_caster<U,T>::operator() (numeric_domain.hpp lines 160
to 165). -/
def domain_caster_general (U T : StaticDomain) (value : ℤ) : Option ℤ :=
  domain_convert value T.min T.max (extent_of T) U.min (extent_of U)

/-- Specialised domain_caster<U,U>::operator() (numeric_domain.hpp lines
166 to 171): the value is returned unchanged. -/
def domain_caster_same (value : ℤ) : ℤ :=
  value

/-- Static-to-static domain_cast<U,T> (numeric_domain.hpp lines 176 to
179).  C++ selects the domain_caster<U,U> specialisation exactly when the
two template arguments are the same type; the type arguments are modelled
as tags drawn from ℕ, with bounds given by a tag-indexed family.  Distinct
tags with equal bounds are distinct C++ types and do not take the identity
path. -/
def domain_cast (bounds : ℕ → StaticDomain) (u t : ℕ) (value : ℤ) : Option ℤ :=
  if u = t then some (domain_caster_same value)
  else domain_caster_general (bounds u) (bounds t) value

/-- dynamic_domain<T> (numeric_domain.hpp lines 132 to 141) at an integral
value type. -/
structure dynamic_domain where
  min : ℤ
  max : ℤ

/-- dynamic_domain::extent() (numeric_domain.hpp line 140). -/
def dynamic_domain.extent (d : dynamic_domain) : ℤ :=
  d.max - d.min

/-- make_domain(min, max) (numeric_domain.hpp lines 146 to 149). -/
def make_domain (lo hi : ℤ) : dynamic_domain :=
  ⟨lo, hi⟩

/-- make_domain<T>() (numeric_domain.hpp lines 154 to 157): a dynamic
domain carrying the bounds of a static domain. -/
def make_domain_of (D : StaticDomain) : dynamic_domain :=
  ⟨D.min, D.max⟩

/-- Dynamic-to-dynamic domain_cast(to, value, from) (numeric_domain.hpp
lines 184 to 187). -/
def domain_cast_dyn (dst : dynamic_domain) (value : ℤ) (src : dynamic_domain) : Option ℤ :=
  domain_convert value src.min src.max src.extent dst.min dst.extent

/-- Static-to-dynamic domain_cast<T>(to, value) (numeric_domain.hpp lines
192 to 195). -/
def domain_cast_to_dyn (dst : dynamic_domain) (T : StaticDomain) (value : ℤ) : Option ℤ :=
  domain_convert value T.min T.max (extent_of T) dst.min dst.extent

/-- Dynamic-to-static domain_cast<U>(value, from) (numeric_domain.hpp
lines 200 to 203): delegates to the dynamic-to-dynamic overload through
make_domain<U>(). -/
def domain_cast_from_dyn (U : StaticDomain) (value : ℤ) (src : dynamic_domain) : Option ℤ :=
  domain_cast_dyn (make_domain_of U) value src

/-- The bound formula of numeric_domain<arithmetic_t<T, Min, Max,
RatioScaler>> (numeric_domain.hpp lines 94 to 99) at an integral value
type: num * bound / den with truncating division. -/
def arithmetic_t_bound (num den bound : ℤ) : ℤ :=
  (num * bound).tdiv den

/-- unsigned_int<Bits> (numeric_domain.hpp lines 106 to 107): the
arithmetic_t alias with Min = 0 and Max = (1 << Bits) - 1, default ratio
1/1. -/
def unsigned_int (Bits : ℕ) : StaticDomain :=
  ⟨arithmetic_t_bound 1 1 0, arithmetic_t_bound 1 1 (2 ^ Bits - 1)⟩

/-- signed_int<Bits> (numeric_domain.hpp lines 112 to 113): the
arithmetic_t alias with Min = -(1 << (Bits - 1)) and
Max = (1 << (Bits - 1)) - 1, default ratio 1/1. -/
def signed_int (Bits : ℕ) : StaticDomain :=
  ⟨arithmetic_t_bound 1 1 (-(2 ^ (Bits - 1))), arithmetic_t_bound 1 1 (2 ^ (Bits - 1) - 1)⟩

lemma cppDiv_of_ne_zero (a : ℤ) {b : ℤ} (hb : b ≠ 0) : cppDiv a b = some (a.tdiv b) := by
  simp [cppDiv, hb]

lemma cppDivRat_of_ne_zero (a : ℚ) {b : ℚ} (hb : b ≠ 0) : cppDivRat a b = some (a / b) := by
  simp [cppDivRat, hb]

lemma domain_convert_eq_some (t tmin tmax : ℤ) {textent : ℤ} (umin uextent : ℤ)
    (h : textent ≠ 0) :
    domain_convert t tmin tmax textent umin uextent =
      some (umin + ((max tmin (min tmax t) - tmin) * uextent).tdiv textent) := by
  simp [domain_convert, cppDiv_of_ne_zero _ h]

lemma domain_convertRat_eq_some (t tmin tmax : ℚ) {textent : ℚ} (umin uextent : ℚ)
    (h : textent ≠ 0) :
    domain_convertRat t tmin tmax textent umin uextent =
      some (umin + (max tmin (min tmax t) - tmin) * uextent / textent) := by
  simp [domain_convertRat, cppDivRat_of_ne_zero _ h]

/-- Conversion with identical source and destination bounds and nonzero
extent is exactly the clamp: the multiplication by the extent is cancelled
exactly by the truncating division. -/
lemma domain_convert_self (lo hi v : ℤ) (h : hi - lo ≠ 0) :
    domain_convert v lo hi (hi - lo) lo (hi - lo) = some (max lo (min hi v)) := by
  rw [domain_convert_eq_some _ _ _ _ _ h, Int.mul_tdiv_cancel _ h]
  congr 1
  omega

/-- C1: every cast that reaches the conversion algorithm with nonzero
source extent computes exactly clamp, scale by the destination extent,
divide by the source extent (truncating at integral instantiations, real
division at floating ones, with a final truncating narrowing at an
integral destination), offset by the destination minimum; values outside
the source bounds are silently saturated to the nearest bound, never an
error. -/
theorem C1_conversion_algorithm_steps :
    (∀ v srcMin srcMax srcExtent dstMin dstExtent : ℤ, srcExtent ≠ 0 →
      domain_convert v srcMin srcMax srcExtent dstMin dstExtent =
        some (dstMin + ((max srcMin (min srcMax v) - srcMin) * dstExtent).tdiv srcExtent)) ∧
    (∀ v srcMin srcMax srcExtent dstMin dstExtent : ℚ, srcExtent ≠ 0 →
      domain_convertRat v srcMin srcMax srcExtent dstMin dstExtent =
        some (dstMin + (max srcMin (min srcMax v) - srcMin) * dstExtent / srcExtent)) ∧
    (∀ v srcMin srcMax srcExtent dstMin dstExtent : ℚ, srcExtent ≠ 0 →
      domain_convertRatToInt v srcMin srcMax srcExtent dstMin dstExtent =
        some (ratTrunc (dstMin + (max srcMin (min srcMax v) - srcMin) * dstExtent / srcExtent))) ∧
    (∀ v srcMin srcMax srcExtent dstMin dstExtent : ℤ, srcMax < v →
      domain_convert v srcMin srcMax srcExtent dstMin dstExtent =
        domain_convert srcMax srcMin srcMax srcExtent dstMin dstExtent) ∧
    (∀ v srcMin srcMax srcExtent dstMin dstExtent : ℤ, v < srcMin →
      domain_convert v srcMin srcMax srcExtent dstMin dstExtent =
        domain_convert srcMin srcMin srcMax srcExtent dstMin dstExtent) := by
  refine ⟨?_, ?_, ?_, ?_, ?_⟩
  · intro v srcMin srcMax srcExtent dstMin dstExtent h
    exact domain_convert_eq_some _ _ _ _ _ h
  · intro v srcMin srcMax srcExtent dstMin dstExtent h
    exact domain_convertRat_eq_some _ _ _ _ _ h
  · intro v srcMin srcMax srcExtent dstMin dstExtent h
    rw [domain_convertRatToInt, domain_convertRat_eq_some _ _ _ _ _ h]
    rfl
  · intro v srcMin srcMax srcExtent dstMin dstExtent h
    have hclamp : max srcMin (min srcMax v) = max srcMin (min srcMax srcMax) := by omega
    simp only [domain_convert, hclamp]
  · intro v srcMin srcMax srcExtent dstMin dstExtent h
    have hclamp : max srcMin (min srcMax v) = max srcMin (min srcMax srcMin) := by omega
    simp only [domain_convert, hclamp]

/-- Witness for C1 at a concrete input: converting 3000 from the 12 bit
range [0, 4095] to the 8 bit range [0, 255] follows the four steps and
yields 187. -/
theorem C1_conversion_algorithm_steps_witness :
    (4095 : ℤ) ≠ 0 ∧
    domain_convert 3000 0 4095 4095 0 255 =
      some ((0:ℤ) + ((max (0:ℤ) (min 4095 3000) - 0) * 255).tdiv 4095) :=
  ⟨by decide, C1_conversion_algorithm_steps.1 3000 0 4095 4095 0 255 (by decide)⟩

/-- C2: the static same-domain cast domain_cast<U,U> hits the identity
specialisation and returns the input unchanged, with no clamp and no
rescale, even for values outside the bounds of the domain. -/
theorem C2_static_identity_cast :
    ∀ (bounds : ℕ → StaticDomain) (u : ℕ) (value : ℤ),
      domain_cast bounds u u value = some value := by
  intro bounds u value
  simp [domain_cast, domain_caster_same]

/-- C8: the division by the source extent is unguarded: whenever the
source extent is zero the conversion algorithm reaches a division by zero
(undefined behaviour, modelled as none) for every input, at both the
integral and the floating instantiation; no branch returns the destination
minimum or any other value instead. -/
theorem C8_division_by_zero_unguarded :
    (∀ t tmin tmax umin uextent : ℤ,
      domain_convert t tmin tmax 0 umin uextent = none) ∧
    (∀ t tmin tmax umin uextent : ℚ,
      domain_convertRat t tmin tmax 0 umin uextent = none) := by
  constructor
  · intro t tmin tmax umin uextent
    simp [domain_convert, cppDiv]
  · intro t tmin tmax umin uextent
    simp [domain_convertRat, cppDivRat]


/-- A concrete static-domain family used for concrete evaluations: every
tag carries the bounds [0, 127] (the bounds of signed_int 8, and of the
int8_t full range). -/
def exampleBounds : ℕ → StaticDomain := fun _ => ⟨0, 127⟩

/-- C3 fails on the code as stated: the static same-domain cast takes the
identity specialisation, so converting the out-of-range value 200 from
the domain [0, 127] to itself returns 200 unchanged, not the clamp 127. -/
theorem C3_counterexample :
    domain_cast exampleBounds 0 0 200 = some 200 ∧
    max (0:ℤ) (min 127 200) = 127 ∧ (200:ℤ) ≠ 127 :=
  ⟨rfl, by decide, by decide⟩

/-- C3 amended: a same-domain conversion that reaches the conversion
algorithm (a dynamic-to-dynamic cast between equal bounds with nonzero
extent) yields exactly clamp(v, min, max); the static same-domain cast
instead returns v unchanged, which agrees with the clamp only for
in-range v. -/
theorem C3_same_domain_clamp_amended :
    (∀ lo hi v : ℤ, hi - lo ≠ 0 →
      domain_cast_dyn (make_domain lo hi) v (make_domain lo hi) =
        some (max lo (min hi v))) ∧
    (∀ (bounds : ℕ → StaticDomain) (t : ℕ) (v : ℤ),
      (bounds t).min ≤ v → v ≤ (bounds t).max →
      domain_cast bounds t t v = some (max (bounds t).min (min (bounds t).max v))) := by
  constructor
  · intro lo hi v h
    exact domain_convert_self lo hi v h
  · intro bounds t v h1 h2
    have hclamp : max (bounds t).min (min (bounds t).max v) = v := by omega
    rw [hclamp]
    simp [domain_cast, domain_caster_same]

/-- Witness for C3 amended at a concrete input: a dynamic same-bounds cast
over [0, 10] clamps 99 to 10, and the static same-domain cast agrees with
the clamp at the in-range value 5. -/
theorem C3_same_domain_clamp_amended_witness :
    ((10:ℤ) - 0 ≠ 0 ∧
      domain_cast_dyn (make_domain 0 10) 99 (make_domain 0 10) =
        some (max 0 (min 10 99))) ∧
    ((exampleBounds 4).min ≤ (5:ℤ) ∧ (5:ℤ) ≤ (exampleBounds 4).max ∧
      domain_cast exampleBounds 4 4 5 =
        some (max (exampleBounds 4).min (min (exampleBounds 4).max 5))) :=
  ⟨⟨by decide, C3_same_domain_clamp_amended.1 0 10 99 (by decide)⟩,
   ⟨by decide, by decide,
    C3_same_domain_clamp_amended.2 exampleBounds 4 5 (by decide) (by decide)⟩⟩

/-- C4 fails on the code as stated: with the static domain S = [0, 127]
and destination X = S itself, the static cast of the out-of-range value
200 takes the identity path and returns 200, while the cast from the
dynamic domain with the same bounds runs the conversion algorithm and
returns the clamp 127. -/
theorem C4_counterexample :
    domain_cast exampleBounds 0 0 200 = some 200 ∧
    domain_cast_from_dyn (exampleBounds 0) 200 (make_domain 0 127) = some 127 ∧
    some (200:ℤ) ≠ some (127:ℤ) :=
  ⟨rfl, by decide, by decide⟩

/-- C4 amended: a cast from a static domain agrees with the cast from a
dynamic domain built with the same bounds whenever the conversion goes
through the conversion algorithm: for a static destination this needs the
destination type to differ from the source type (otherwise the static
side takes the identity path), and for a dynamic destination it holds
unconditionally. -/
theorem C4_static_dynamic_equivalence_amended :
    (∀ (bounds : ℕ → StaticDomain) (u t : ℕ) (v : ℤ), u ≠ t →
      domain_cast bounds u t v =
        domain_cast_from_dyn (bounds u) v (make_domain (bounds t).min (bounds t).max)) ∧
    (∀ (dst : dynamic_domain) (T : StaticDomain) (v : ℤ),
      domain_cast_to_dyn dst T v = domain_cast_dyn dst v (make_domain T.min T.max)) := by
  constructor
  · intro bounds u t v h
    simp only [domain_cast, if_neg h]
    rfl
  · intro dst T v
    rfl

/-- Witness for C4 amended at a concrete input: casting 5 between two
distinct static tags both bounded by [0, 127] agrees with casting from
the dynamic domain with those bounds. -/
theorem C4_static_dynamic_equivalence_amended_witness :
    (0:ℕ) ≠ 1 ∧
    domain_cast exampleBounds 0 1 5 =
      domain_cast_from_dyn (exampleBounds 0) 5
        (make_domain (exampleBounds 1).min (exampleBounds 1).max) :=
  ⟨by decide, C4_static_dynamic_equivalence_amended.1 exampleBounds 0 1 5 (by decide)⟩

/-- C10: a dynamic-to-dynamic cast whose source and destination domains
share the same bounds (with min < max) never takes the identity path: it
runs the conversion algorithm, whose result is exactly
clamp(v, min, max), so an out-of-range input yields the nearest bound and
not the input itself, unlike the static same-domain cast. -/
theorem C10_dynamic_same_bounds_clamp :
    ∀ lo hi v : ℤ, lo < hi →
      domain_cast_dyn (make_domain lo hi) v (make_domain lo hi) =
        some (max lo (min hi v)) ∧
      ((v < lo ∨ hi < v) →
        domain_cast_dyn (make_domain lo hi) v (make_domain lo hi) ≠ some v) := by
  intro lo hi v h
  have he : hi - lo ≠ 0 := by omega
  have hc : domain_cast_dyn (make_domain lo hi) v (make_domain lo hi) =
      some (max lo (min hi v)) := domain_convert_self lo hi v he
  refine ⟨hc, fun hout hv => ?_⟩
  rw [hc] at hv
  have := Option.some.inj hv
  omega

/-- Witness for C10 at a concrete input: over the dynamic bounds [0, 10]
the out-of-range value 200 is clamped to 10, and the result is not 200. -/
theorem C10_dynamic_same_bounds_clamp_witness :
    (0:ℤ) < 10 ∧
    domain_cast_dyn (make_domain 0 10) 200 (make_domain 0 10) =
      some (max 0 (min 10 200)) :=
  ⟨by decide, (C10_dynamic_same_bounds_clamp 0 10 200 (by decide)).1⟩

/-- C5 fails on the code as stated for the signed alias: signed_int with
7 bits has minimum -(1 << 6) = -64, the full two-complement-style lower
bound, not the symmetric -(2 ^ 6 - 1) = -63 the claim states. -/
theorem C5_counterexample :
    (signed_int 7).min = -64 ∧ (-64:ℤ) ≠ -(2 ^ (7 - 1) - 1) :=
  ⟨by decide, by decide⟩

/-- C5 amended: for every bit width N, unsigned_int N has bounds
[0, 2 ^ N - 1] as claimed, and signed_int N has bounds
[-(2 ^ (N - 1)), 2 ^ (N - 1) - 1]: the lower bound is the most negative
value -(2 ^ (N - 1)), so the range is asymmetric and the most-negative
value is not sacrificed. -/
theorem C5_bit_width_domain_bounds_amended :
    ∀ N : ℕ, (unsigned_int N).min = 0 ∧ (unsigned_int N).max = 2 ^ N - 1 ∧
      (signed_int N).min = -(2 ^ (N - 1)) ∧ (signed_int N).max = 2 ^ (N - 1) - 1 := by
  intro N
  refine ⟨?_, ?_, ?_, ?_⟩ <;>
    simp [unsigned_int, signed_int, arithmetic_t_bound, Int.tdiv_one]

/-- Exact value of std::numeric_limits of float min(): the smallest
positive normalised binary32 value, 2 to the power -126. -/
def float_limits_min : ℚ := 1 / 2 ^ 126

/-- Exact value of std::numeric_limits of float max(): the greatest finite
binary32 value, (2 - 2 to the power -23) times 2 to the power 127. -/
def float_limits_max : ℚ := 2 ^ 128 - 2 ^ 104

/-- Exact value of std::numeric_limits of float lowest(): the least
representable binary32 value. -/
def float_lowest : ℚ := -(2 ^ 128 - 2 ^ 104)

/-- numeric_domain of float through the arithmetic specialisation
(numeric_domain.hpp lines 78 to 83): min() returns
std::numeric_limits of float min(). bounds_of in bounded_cast.hpp lines
74 to 80 is identical. -/
def numeric_domain_float_min : ℚ := float_limits_min

/-- numeric_domain of float: max() returns std::numeric_limits of float
max(). -/
def numeric_domain_float_max : ℚ := float_limits_max

/-- C6 evaluated at the failing input T = float: the code assigns min() =
numeric_limits min() = 2 to the power -126, a strictly positive value,
while the lowest representable value of float is the negative
numeric_limits lowest(); so for floating identifiers the bounds are not
the full representable range. -/
theorem C6_float_min_is_not_lowest :
    numeric_domain_float_min = 1 / 2 ^ 126 ∧
    0 < numeric_domain_float_min ∧
    float_lowest < 0 ∧
    numeric_domain_float_min ≠ float_lowest ∧
    numeric_domain_float_max = float_limits_max := by
  refine ⟨rfl, ?_, ?_, ?_, rfl⟩
  · rw [numeric_domain_float_min, float_limits_min]
    positivity
  · rw [float_lowest]
    norm_num
  · rw [numeric_domain_float_min, float_limits_min, float_lowest]
    norm_num

/-- C7: the conversion is non-decreasing: with ordered source bounds,
nonzero source extent and nonnegative destination extent, a larger input
never maps to a smaller output, at both the integral and the floating
instantiation. -/
theorem C7_conversion_monotone :
    (∀ v1 v2 tmin tmax umin uextent : ℤ,
      tmin ≤ tmax → tmin ≠ tmax → 0 ≤ uextent → v1 ≤ v2 →
      ∃ r1 r2, domain_convert v1 tmin tmax (tmax - tmin) umin uextent = some r1 ∧
        domain_convert v2 tmin tmax (tmax - tmin) umin uextent = some r2 ∧ r1 ≤ r2) ∧
    (∀ v1 v2 tmin tmax umin uextent : ℚ,
      tmin ≤ tmax → tmin ≠ tmax → 0 ≤ uextent → v1 ≤ v2 →
      ∃ r1 r2, domain_convertRat v1 tmin tmax (tmax - tmin) umin uextent = some r1 ∧
        domain_convertRat v2 tmin tmax (tmax - tmin) umin uextent = some r2 ∧ r1 ≤ r2) := by
  constructor
  · intro v1 v2 tmin tmax umin uextent hle hne hu hv
    have he : tmax - tmin ≠ 0 := by omega
    have hepos : (0:ℤ) < tmax - tmin := by omega
    refine ⟨_, _, domain_convert_eq_some _ _ _ _ _ he,
      domain_convert_eq_some _ _ _ _ _ he, ?_⟩
    have hmul : (max tmin (min tmax v1) - tmin) * uextent ≤
        (max tmin (min tmax v2) - tmin) * uextent :=
      mul_le_mul_of_nonneg_right (by omega) hu
    have h1 : (0:ℤ) ≤ (max tmin (min tmax v1) - tmin) * uextent :=
      mul_nonneg (by omega) hu
    have h2 : (0:ℤ) ≤ (max tmin (min tmax v2) - tmin) * uextent :=
      mul_nonneg (by omega) hu
    rw [Int.tdiv_eq_ediv h1 hepos.le, Int.tdiv_eq_ediv h2 hepos.le]
    exact add_le_add_left (Int.ediv_le_ediv hepos hmul) umin
  · intro v1 v2 tmin tmax umin uextent hle hne hu hv
    have hepos : (0:ℚ) < tmax - tmin := sub_pos.mpr (lt_of_le_of_ne hle hne)
    refine ⟨_, _, domain_convertRat_eq_some _ _ _ _ _ hepos.ne.symm,
      domain_convertRat_eq_some _ _ _ _ _ hepos.ne.symm, ?_⟩
    have hcm : max tmin (min tmax v1) ≤ max tmin (min tmax v2) :=
      max_le_max le_rfl (min_le_min le_rfl hv)
    have hmul := mul_le_mul_of_nonneg_right (sub_le_sub_right hcm tmin) hu
    exact add_le_add_left ((div_le_div_iff_of_pos_right hepos).mpr hmul) umin

/-- Witness for C7 at a concrete input: converting 3 and then 5 from
[0, 10] to a destination of extent 100 gives non-decreasing results. -/
theorem C7_conversion_monotone_witness :
    (0:ℤ) ≤ 10 ∧ (0:ℤ) ≠ 10 ∧ (0:ℤ) ≤ 100 ∧ (3:ℤ) ≤ 5 ∧
    ∃ r1 r2, domain_convert 3 0 10 (10 - 0) 0 100 = some r1 ∧
      domain_convert 5 0 10 (10 - 0) 0 100 = some r2 ∧ r1 ≤ r2 :=
  ⟨by decide, by decide, by decide, by decide,
   C7_conversion_monotone.1 3 5 0 10 0 100 (by decide) (by decide) (by decide) (by decide)⟩

/-- Two-complement wrap of a mathematical integer into the 32 bit signed
range, modelling the common wraparound outcome of C++ signed int overflow
in the extent subtraction of numeric_domain.hpp. -/
def wrap32 (x : ℤ) : ℤ :=
  (x + 2 ^ 31) % 2 ^ 32 - 2 ^ 31

/-- std::numeric_limits of int32_t min(). -/
def int32_min : ℤ := -(2 ^ 31)

/-- std::numeric_limits of int32_t max(). -/
def int32_max : ℤ := 2 ^ 31 - 1

/-- extent_of of numeric_domain.hpp (lines 56 to 59) at T = int32_t: the
subtraction max() - min() is evaluated in the extent type
decltype(v - v) = int, a 32 bit signed type, so the mathematical
difference 2 ^ 32 - 1 is wrapped. -/
def nd_extent_int32 : ℤ :=
  wrap32 (int32_max - int32_min)

/-- static_cast of an integer to std::uintmax_t: reduction modulo 2^64. -/
def toUintmax (x : ℤ) : ℤ :=
  x % 2 ^ 64

/-- extent_of of bounded_cast.hpp (lines 48 to 52):
static_cast to uintmax_t of max() minus static_cast to uintmax_t of
min(), computed in uintmax_t arithmetic, that is modulo 2^64. -/
def bc_extent (lo hi : ℤ) : ℤ :=
  (toUintmax hi - toUintmax lo) % 2 ^ 64

/-- C9 fails on the code as stated: in numeric_domain.hpp the extent type
of the int32_t full-range domain is the 32 bit int itself, so extent_of
overflows and yields -1 instead of the exact difference 2 ^ 32 - 1. -/
theorem C9_counterexample :
    nd_extent_int32 = -1 ∧ int32_max - int32_min = 2 ^ 32 - 1 ∧
    (-1:ℤ) ≠ 2 ^ 32 - 1 :=
  ⟨by decide, by decide, by decide⟩

/-- C9 amended: the uintmax_t extent of bounded_cast.hpp equals the exact
difference max - min for every domain whose ordered bounds differ by less
than 2 ^ 64, in particular for the full-range 32 and 64 bit integer
domains; the extent of numeric_domain.hpp is exact only when the
difference fits the 32 bit extent type. -/
theorem C9_extent_amended :
    (∀ lo hi : ℤ, lo ≤ hi → hi - lo < 2 ^ 64 → bc_extent lo hi = hi - lo) ∧
    (∀ x : ℤ, -(2 ^ 31) ≤ x → x < 2 ^ 31 → wrap32 x = x) ∧
    bc_extent int32_min int32_max = 2 ^ 32 - 1 ∧
    bc_extent (-(2 ^ 63)) (2 ^ 63 - 1) = 2 ^ 64 - 1 ∧
    bc_extent 0 (2 ^ 64 - 1) = 2 ^ 64 - 1 := by
  refine ⟨?_, ?_, by decide, by decide, by decide⟩
  · intro lo hi hle hlt
    have hrw : bc_extent lo hi = (hi - lo) % 2 ^ 64 := by
      rw [bc_extent, toUintmax, toUintmax, ← Int.sub_emod]
    rw [hrw, Int.emod_eq_of_lt (by omega) hlt]
  · intro x h1 h2
    rw [wrap32, Int.emod_eq_of_lt (by omega) (by omega)]
    omega

/-- Witness for C9 amended at a concrete input: the uintmax_t extent of
the dynamic bounds [0, 10] is the exact difference 10. -/
theorem C9_extent_amended_witness :
    (0:ℤ) ≤ 10 ∧ (10:ℤ) - 0 < 2 ^ 64 ∧ bc_extent 0 10 = 10 - 0 :=
  ⟨by decide, by decide, C9_extent_amended.1 0 10 (by decide) (by decide)⟩

end NumericDomain
